import Mathlib

/-!
Verification of the OOOasis out-of-office calendar reconciler (oooasis.py).

The development shallowly embeds the reconciliation core of the script:
calendar-name resolution, event-time extraction, fingerprint matching, and
the enable / disable / is-ooo-today / check operations.  Calendar dates are
represented as day numbers (days since 1970-01-01), with a civil
year/month/day structure and the standard civil-date conversion used to
express concrete dates and the month-window computation.  The external
Google Calendar backend is modelled through the query/mutation contract the
script uses: a list of calendars, an ordered event store, and flags for the
failure modes the script catches.  Each operation returns its observable
outcome together with the list of backend event-API calls it issued
(queries, inserts, deletes), so that ordering and counting claims can be
stated.
-/

/-- LocalDate is a calendar date represented as a day number:
days since 1970-01-01 (negative for earlier dates).  Python date objects
are order-isomorphic to this representation. -/
abbrev LocalDate := Int

/-- Civil calendar date (proleptic Gregorian), used to write concrete dates
and to model the month arithmetic of get_upcoming_ooo_events. -/
structure Civil where
  year : Nat
  month : Nat
  day : Nat
deriving DecidableEq, Repr

/-- Days since 1970-01-01 for a civil date (standard civil-calendar
conversion, as computed by Python datetime.date.toordinal up to an offset). -/
def Civil.toDays (c : Civil) : Int :=
  let y : Nat := if c.month ≤ 2 then c.year - 1 else c.year
  let era : Nat := y / 400
  let yoe : Nat := y - era * 400
  let mp : Nat := if 2 < c.month then c.month - 3 else c.month + 9
  let doy : Nat := (153 * mp + 2) / 5 + c.day - 1
  let doe : Nat := yoe * 365 + yoe / 4 - yoe / 100 + doy
  (era : Int) * 146097 + (doe : Int) - 719468

/-- Inverse civil-calendar conversion: the civil date of a day number. -/
def Civil.ofDays (z : Int) : Civil :=
  let z2 : Int := z + 719468
  let era : Int := z2.fdiv 146097
  let doe : Nat := (z2 - era * 146097).toNat
  let yoe : Nat := (doe - doe / 1460 + doe / 36524 - doe / 146096) / 365
  let y : Int := (yoe : Int) + era * 400
  let doy : Nat := doe - (365 * yoe + yoe / 4 - yoe / 100)
  let mp : Nat := (5 * doy + 2) / 153
  let d : Nat := doy - (153 * mp + 2) / 5 + 1
  let m : Nat := if mp < 10 then mp + 3 else mp - 9
  ⟨(y + (if m ≤ 2 then 1 else 0)).toNat, m, d⟩

/-- Python date + timedelta(days=n) on the civil representation. -/
def Civil.addDays (c : Civil) (n : Int) : Civil :=
  Civil.ofDays (c.toDays + n)

/-- Python date.replace(day=d). -/
def Civil.replaceDay (c : Civil) (d : Nat) : Civil :=
  ⟨c.year, c.month, d⟩

/-- Python date.weekday(): Monday = 0 .. Sunday = 6.
1970-01-01 (day number 0) was a Thursday (weekday 3). -/
def weekday (d : LocalDate) : Int :=
  (d + 3) % 7

/-- Python substring test: strContains s p is true when p occurs
contiguously in s (the expression p in s). -/
def strContains (s p : String) : Bool :=
  let sl := s.toList
  let pl := p.toList
  (List.range (sl.length + 1)).any (fun i => (sl.drop i).take pl.length == pl)

/-- Start or end time of a backend event.
A dateTime value is a zoned timestamp: the absolute instant in seconds since
1970-01-01T00:00:00Z, together with the offset (in seconds) of the time zone
named on the event itself (the source resolves the timeZone name with
dateutil tz.gettz; the model carries the resolved fixed offset).
A date value is an all-day date; the timeZone string stored with it by the
source is carried but never read by date extraction. -/
inductive TimeInfo where
  | dateTime (instant : Int) (timeZone : Int)
  | date (d : LocalDate) (timeZone : String)
deriving DecidableEq, Repr

/-- UTC instant (seconds) used for the backend query window filter: an
all-day date d spans from d*86400 (its start bound) to d*86400 (as an end
field, the exclusive end bound of the previous span). -/
def TimeInfo.utcSeconds : TimeInfo → Int
  | .dateTime instant _ => instant
  | .date d _ => d * (86400 : Int)

/-- Selector for the start or end field of an event. -/
inductive TimeKey where
  | start
  | end_
deriving DecidableEq, Repr

/-- Backend event record, with the fields the script reads and writes. -/
structure Event where
  summary : String
  description : String
  start : TimeInfo
  end_ : TimeInfo
  transparency : String
  visibility : String
  status : String
  eventType : String
  id : String
deriving DecidableEq, Repr

/-- Field lookup event[time_key]. -/
def Event.timeInfo (e : Event) : TimeKey → TimeInfo
  | .start => e.start
  | .end_ => e.end_

/-- Backend calendar record: id and display name (summary). -/
structure Calendar where
  id : String
  summary : String
deriving DecidableEq, Repr

/-- Configuration read through get_default_config. -/
structure Config where
  default_team_calendar : String
  timezone : String
  default_personal_calendar : String
  ooo_pattern : String
deriving DecidableEq, Repr

/-- Python str.strip(): remove leading and trailing whitespace. -/
def pyStrip (s : String) : String :=
  ⟨((s.toList.dropWhile Char.isWhitespace).reverse.dropWhile Char.isWhitespace).reverse⟩

/-- Username of the configured default person:
get_default_config(default_personal_calendar).split(at-sign)[0], that is
the characters before the first at-sign (the whole string when absent). -/
def defaultUsername (cfg : Config) : String :=
  ⟨cfg.default_personal_calendar.toList.takeWhile (fun c => c ≠ '@')⟩

/-- Event fingerprint built by every operation:
f-string username, space, ooo_pattern.strip(). -/
def fingerprint (cfg : Config) : String :=
  defaultUsername cfg ++ " " ++ pyStrip cfg.ooo_pattern

/-- Model of the external Google Calendar backend:
the visible calendar list, whether listing the calendar list raises, the
(startTime-ordered) event store of the team calendar, whether event
insertion raises, the set of event ids whose deletion raises, and the id
the backend assigns to the next inserted event. -/
structure Backend where
  calendars : List Calendar
  listCalsFails : Bool
  events : List Event
  insertFails : Bool
  deleteFails : List String
  nextId : String
deriving DecidableEq, Repr

/-- A backend event-API call issued by an operation, in issue order.
Query carries the resolved calendar id (None when resolution failed and the
script passed None along), the window bounds in UTC seconds, and the
free-text q parameter. -/
inductive Call where
  | query (calendarId : Option String) (timeMin timeMax : Int) (q : String)
  | insert (calendarId : String) (event : Event)
  | delete (calendarId : Option String) (eventId : String)
deriving DecidableEq, Repr

/-- Whether a call is an event insertion. -/
def Call.isInsert : Call → Bool
  | .insert _ _ => true
  | _ => false

/-- Whether a call is an event deletion. -/
def Call.isDelete : Call → Bool
  | .delete _ _ => true
  | _ => false

/-- Whether a call is an event-list query. -/
def Call.isQuery : Call → Bool
  | .query _ _ _ _ => true
  | _ => false

/-- Number of insert calls in a trace. -/
def countInserts (cs : List Call) : Nat :=
  (cs.filter Call.isInsert).length

/-- Number of delete calls in a trace. -/
def countDeletes (cs : List Call) : Nat :=
  (cs.filter Call.isDelete).length

/-- Number of query calls in a trace. -/
def countQueries (cs : List Call) : Nat :=
  (cs.filter Call.isQuery).length

/-- get_calendar_id_by_name: first try calendars().get with the name as the
calendar id (modelled as lookup of the first calendar whose id equals the
name); on failure fall back to scanning calendarList().list() for the first
calendar whose display name (summary) equals the name; if the listing
raises, or nothing matches, print an error and return None. -/
def get_calendar_id_by_name (b : Backend) (team_calendar_name : String) : Option String :=
  match b.calendars.find? (fun c => c.id == team_calendar_name) with
  | some calendar => some calendar.id
  | none =>
    if b.listCalsFails then
      none
    else
      match b.calendars.find? (fun c => c.summary == team_calendar_name) with
      | some calendar => some calendar.id
      | none => none

/-- events().list with timeMin, timeMax and q: per the Google Calendar API,
an event is returned when its end is after timeMin (exclusive lower bound)
and its start is before timeMax (exclusive upper bound); the q parameter is
a free-text match against event content, modelled over the summary. -/
def listEvents (evs : List Event) (timeMin timeMax : Int) (q : String) : List Event :=
  evs.filter (fun e =>
    decide (timeMin < e.end_.utcSeconds) &&
    decide (e.start.utcSeconds < timeMax) &&
    strContains e.summary q)

/-- event_exists: query events in the window start_date T00:00:00Z to
end_date T00:00:00Z with q = event_summary, and test whether any returned
event summary equals event_summary exactly. -/
def event_exists (b : Backend) (calendar_id : Option String)
    (start_date end_date : LocalDate) (event_summary : String) : Bool :=
  (listEvents b.events (start_date * (86400 : Int)) (end_date * (86400 : Int)) event_summary).any
    (fun event => event.summary == event_summary)

/-- get_date_from_event: a dateTime value is converted into the time zone
named on the event itself and the calendar date of the converted instant is
taken (floor of local seconds over 86400); a date value is parsed directly
with no conversion. -/
def get_date_from_event (event : Event) (time_key : TimeKey) : LocalDate :=
  match event.timeInfo time_key with
  | .dateTime instant timeZone => (instant + timeZone).fdiv 86400
  | .date d _ => d

/-- First day of the month after utcToday, computed exactly as the source:
today.replace(day=1) + 32 days, then .replace(day=1). -/
def firstDayNextMonth (utcToday : Civil) : Civil :=
  (((utcToday.replaceDay 1).addDays 32).replaceDay 1)

/-- Last day of the month after utcToday, computed exactly as the source:
(first_day_next_month + 32 days).replace(day=1) - 1 day. -/
def lastDayNextMonth (utcToday : Civil) : Civil :=
  (((firstDayNextMonth utcToday).addDays 32).replaceDay 1).addDays (-1)

/-- Lower query bound of the default lookahead window:
f-string today T00:00:00Z, in UTC seconds. -/
def windowMin (utcToday : Civil) : Int :=
  utcToday.toDays * (86400 : Int)

/-- Upper query bound of the default lookahead window:
f-string last_day_next_month T23:59:59Z, in UTC seconds. -/
def windowMax (utcToday : Civil) : Int :=
  (lastDayNextMonth utcToday).toDays * (86400 : Int) + 86399

/-- get_upcoming_ooo_events: resolve the calendar (on failure print an error
and return the empty list without querying), then query the default
lookahead window with maxResults and q equal to the fingerprint of the
configured default person, returning the events and the issued call.
utcToday models datetime.utcnow().date(). -/
def get_upcoming_ooo_events (b : Backend) (cfg : Config)
    (team_calendar_name : String) (max_results : Nat) (utcToday : Civil) :
    List Event × List Call :=
  match get_calendar_id_by_name b team_calendar_name with
  | none => ([], [])
  | some calendar_id =>
    let event_summary := fingerprint cfg
    ((listEvents b.events (windowMin utcToday) (windowMax utcToday) event_summary).take max_results,
     [Call.query (some calendar_id) (windowMin utcToday) (windowMax utcToday) event_summary])

/-- The all-day event body constructed by enable_out_of_office, with the id
assigned by the backend at insertion. -/
def mkOooEvent (cfg : Config) (start_date adjusted_end_date : LocalDate)
    (assignedId : String) : Event :=
  { summary := fingerprint cfg
    description := "Out of Office"
    start := .date start_date cfg.timezone
    end_ := .date adjusted_end_date cfg.timezone
    transparency := "opaque"
    visibility := "default"
    status := "confirmed"
    eventType := "default"
    id := assignedId }

/-- Observable outcome of enable_out_of_office.  queryFailed models the
uncaught exception raised by the duplicate-check query when the first
calendar resolution returned None and the script passed None as the
calendar id. -/
inductive EnableResult where
  | alreadyExists
  | created (id : String)
  | calendarNotFound
  | createError
  | queryFailed
deriving DecidableEq, Repr

/-- Result of enable_out_of_office: outcome, backend state after the
operation, and the issued event-API calls. -/
structure EnableOut where
  result : EnableResult
  state : Backend
  calls : List Call
deriving DecidableEq, Repr

/-- enable_out_of_office: build the fingerprint, resolve the calendar,
compute adjusted_end_date = end_date + 1 day, check for an exact-summary
duplicate in the window start_date to adjusted_end_date (warning and return
when found), resolve the calendar again (error and return when None), then
insert the all-day event (error on failure). -/
def enable_out_of_office (b : Backend) (cfg : Config)
    (start_date end_date : LocalDate) : EnableOut :=
  let event_summary := fingerprint cfg
  let team_calendar_id := get_calendar_id_by_name b cfg.default_team_calendar
  let adjusted_end_date := end_date + 1
  let dupQuery := Call.query team_calendar_id (start_date * (86400 : Int))
    (adjusted_end_date * (86400 : Int)) event_summary
  match team_calendar_id with
  | none => { result := .queryFailed, state := b, calls := [dupQuery] }
  | some _ =>
    if event_exists b team_calendar_id start_date adjusted_end_date event_summary then
      { result := .alreadyExists, state := b, calls := [dupQuery] }
    else
      let event := mkOooEvent cfg start_date adjusted_end_date b.nextId
      match get_calendar_id_by_name b cfg.default_team_calendar with
      | none => { result := .calendarNotFound, state := b, calls := [dupQuery] }
      | some calendar_id =>
        if b.insertFails then
          { result := .createError, state := b, calls := [dupQuery, .insert calendar_id event] }
        else
          { result := .created b.nextId
            state := { b with events := b.events ++ [event] }
            calls := [dupQuery, .insert calendar_id event] }

/-- Observable outcome of is_ooo_today. -/
inductive TodayResult where
  | oooWeekend
  | ooo
  | notOoo
deriving DecidableEq, Repr

/-- is_ooo_today: fetch the upcoming team events first, resolve the
effective username (explicit team_member overrides the configured default),
then report weekend OOO when today is Saturday or Sunday, otherwise scan
the fetched events for one whose summary contains the fingerprint and whose
extracted date range contains today.  today models
datetime.now().date() (local); utcToday models the utcnow date used by the
fetch window. -/
def is_ooo_today (b : Backend) (cfg : Config) (team_member : Option String)
    (today : LocalDate) (utcToday : Civil) : TodayResult × List Call :=
  let fetched := get_upcoming_ooo_events b cfg cfg.default_team_calendar 100 utcToday
  let team_events := fetched.1
  let username :=
    match team_member with
    | some t => t
    | none => defaultUsername cfg
  let event_summary := username ++ " " ++ pyStrip cfg.ooo_pattern
  if weekday today == 5 || weekday today == 6 then
    (.oooWeekend, fetched.2)
  else if team_events.any (fun event =>
      strContains event.summary event_summary &&
      decide (get_date_from_event event .start ≤ today) &&
      decide (today ≤ get_date_from_event event .end_)) then
    (.ooo, fetched.2)
  else
    (.notOoo, fetched.2)

/-- One console line of check_out_of_office, or its empty-result message. -/
inductive CheckMsg where
  | noEvents
  | line (startDate endDate : LocalDate) (summary id eventType : String)
deriving DecidableEq, Repr

/-- check_out_of_office: fetch upcoming events (display cap max_results),
report the empty-result message when none, otherwise emit one line per
event, subtracting one day from the extracted end date exactly when the
extracted start and end differ. -/
def check_out_of_office (b : Backend) (cfg : Config) (max_results : Nat)
    (utcToday : Civil) : List CheckMsg × List Call :=
  let fetched := get_upcoming_ooo_events b cfg cfg.default_team_calendar max_results utcToday
  let team_events := fetched.1
  if team_events.isEmpty then
    ([.noEvents], fetched.2)
  else
    (team_events.map (fun event =>
      let start := get_date_from_event event .start
      let e := get_date_from_event event .end_
      let adjusted_end_date := if start ≠ e then e - 1 else e
      CheckMsg.line start adjusted_end_date event.summary event.id event.eventType),
     fetched.2)

/-- Console messages of disable_out_of_office. -/
inductive Msg where
  | disabledOk
  | deleteErr
  | noEventsFound
deriving DecidableEq, Repr

/-- The deletion loop of disable_out_of_office: for each fetched event whose
summary equals the fingerprint exactly, issue a delete; report success and
continue on success, report the error and stop on failure. -/
def disableLoop (calendar_id : Option String) (deleteFails : List String)
    (event_summary : String) : List Event → List Msg × List Call
  | [] => ([], [])
  | event :: rest =>
    if event.summary == event_summary then
      if deleteFails.contains event.id then
        ([Msg.deleteErr], [Call.delete calendar_id event.id])
      else
        let r := disableLoop calendar_id deleteFails event_summary rest
        (Msg.disabledOk :: r.1, Call.delete calendar_id event.id :: r.2)
    else
      disableLoop calendar_id deleteFails event_summary rest

/-- disable_out_of_office: resolve the calendar, fetch the upcoming events
(default window, maxResults 100), run the deletion loop, and report the
no-event message exactly when the fetch returned no events at all. -/
def disable_out_of_office (b : Backend) (cfg : Config) (utcToday : Civil) :
    List Msg × List Call :=
  let event_summary := fingerprint cfg
  let calendar_id := get_calendar_id_by_name b cfg.default_team_calendar
  let fetched := get_upcoming_ooo_events b cfg cfg.default_team_calendar 100 utcToday
  let events := fetched.1
  let r := disableLoop calendar_id b.deleteFails event_summary events
  (r.1 ++ (if events.isEmpty then [Msg.noEventsFound] else []), fetched.2 ++ r.2)

/-! Concrete instances used by the closed counterexamples and witnesses. -/

/-- Concrete configuration: default person alice@example.com, OOO pattern
OOO, so the fingerprint is alice OOO. -/
def cfg0 : Config :=
  ⟨"Team Calendar", "Europe/Madrid", "alice@example.com", "OOO"⟩

/-- Concrete team calendar: id cal-id-1, display name Team Calendar. -/
def cal0 : Calendar :=
  ⟨"cal-id-1", "Team Calendar"⟩

/-- Backend with the team calendar visible and an empty event store. -/
def b0 : Backend :=
  ⟨[cal0], false, [], false, [], "evt-1"⟩

/-- 2024-01-10 as a day number. -/
def s0 : LocalDate := Civil.toDays ⟨2024, 1, 10⟩

/-- 2024-01-12 as a day number. -/
def e0 : LocalDate := Civil.toDays ⟨2024, 1, 12⟩

/-- A concrete utcnow date, 2024-01-05 (its lookahead window runs through
2024-02-29). -/
def uJan : Civil := ⟨2024, 1, 5⟩

/-- 2024-01-06, a Saturday. -/
def dSat : LocalDate := Civil.toDays ⟨2024, 1, 6⟩

/-- 2024-01-08, a Monday. -/
def dMon : LocalDate := Civil.toDays ⟨2024, 1, 8⟩

/-- The event enable_out_of_office stores for 2024-01-10..2024-01-12 (its
stored end date is 2024-01-13). -/
def evStored : Event := mkOooEvent cfg0 s0 (e0 + 1) "evt-1"

/-- Backend holding exactly the stored 2024-01-10..13 event. -/
def bStored : Backend :=
  ⟨[cal0], false, [evStored], false, [], "evt-2"⟩

/-- Enable-created event for 2024-01-08..2024-01-09 (stored end 2024-01-10). -/
def ev7 : Event := mkOooEvent cfg0 (Civil.toDays ⟨2024, 1, 8⟩) (Civil.toDays ⟨2024, 1, 10⟩) "evt-7"

/-- Backend holding exactly ev7. -/
def b7 : Backend :=
  ⟨[cal0], false, [ev7], false, [], "evt-8"⟩

/-- First of two events whose summary equals the fingerprint exactly. -/
def evMatch1 : Event :=
  { summary := "alice OOO"
    description := "Out of Office"
    start := .date (Civil.toDays ⟨2024, 1, 8⟩) "Europe/Madrid"
    end_ := .date (Civil.toDays ⟨2024, 1, 11⟩) "Europe/Madrid"
    transparency := "opaque"
    visibility := "default"
    status := "confirmed"
    eventType := "default"
    id := "m1" }

/-- Second of two events whose summary equals the fingerprint exactly. -/
def evMatch2 : Event :=
  { summary := "alice OOO"
    description := "Out of Office"
    start := .date (Civil.toDays ⟨2024, 1, 15⟩) "Europe/Madrid"
    end_ := .date (Civil.toDays ⟨2024, 1, 18⟩) "Europe/Madrid"
    transparency := "opaque"
    visibility := "default"
    status := "confirmed"
    eventType := "default"
    id := "m2" }

/-- Backend holding two exact-fingerprint events. -/
def bTwo : Backend :=
  ⟨[cal0], false, [evMatch1, evMatch2], false, [], "evt-9"⟩

/-- Event whose summary strictly contains the fingerprint alice OOO. -/
def evSuffix : Event :=
  { summary := "alice OOO-extra-suffix"
    description := "Out of Office"
    start := .date (Civil.toDays ⟨2024, 1, 8⟩) "Europe/Madrid"
    end_ := .date (Civil.toDays ⟨2024, 1, 13⟩) "Europe/Madrid"
    transparency := "opaque"
    visibility := "default"
    status := "confirmed"
    eventType := "default"
    id := "sfx-1" }

/-- Backend holding exactly the containment-only event. -/
def bSuffix : Backend :=
  ⟨[cal0], false, [evSuffix], false, [], "new-1"⟩

/-- Event carrying a zoned start (2024-03-01T23:00:00Z, event time zone
UTC-5) and an all-day end (2024-03-02). -/
def evZoned : Event :=
  { summary := "alice OOO"
    description := "Out of Office"
    start := .dateTime ((Civil.toDays ⟨2024, 3, 1⟩) * 86400 + 23 * 3600) (-(5 * 3600))
    end_ := .date (Civil.toDays ⟨2024, 3, 2⟩) "UTC-5"
    transparency := "opaque"
    visibility := "default"
    status := "confirmed"
    eventType := "default"
    id := "z1" }

/-! Helper lemmas. -/

/-- Every string contains itself as a substring. -/
theorem strContains_refl (s : String) : strContains s s = true := by
  unfold strContains
  apply List.any_eq_true.mpr
  exact ⟨0, List.mem_range.mpr (Nat.succ_pos _), by simp⟩

/-- The deletion loop, when no attempted delete fails, deletes exactly the
exact-summary matches in order and reports one success each. -/
theorem disableLoop_eq_of_no_fail (calendar_id : Option String) (df : List String)
    (fp : String) (l : List Event)
    (h : ∀ ev ∈ l, ev.summary = fp → df.contains ev.id = false) :
    disableLoop calendar_id df fp l
      = (List.replicate (l.filter (fun ev => ev.summary == fp)).length Msg.disabledOk,
         (l.filter (fun ev => ev.summary == fp)).map (fun ev => Call.delete calendar_id ev.id)) := by
  induction l with
  | nil => rfl
  | cons ev rest ih =>
    have ihr := ih (fun x hx hfp => h x (List.mem_cons_of_mem _ hx) hfp)
    by_cases hm : ev.summary = fp
    · have hdf : df.contains ev.id = false := h ev (List.mem_cons_self _ _) hm
      have hdf2 : ev.id ∉ df := by simpa using hdf
      simp [disableLoop, hm, hdf2, List.filter_cons, ihr, List.replicate_succ]
    · simp [disableLoop, hm, List.filter_cons, ihr]

/-- The fetch primitive issues no insert or delete calls. -/
theorem get_upcoming_no_mutations (b : Backend) (cfg : Config) (name : String)
    (max_results : Nat) (utc : Civil) :
    countInserts (get_upcoming_ooo_events b cfg name max_results utc).2 = 0 ∧
    countDeletes (get_upcoming_ooo_events b cfg name max_results utc).2 = 0 := by
  unfold get_upcoming_ooo_events
  cases hres : get_calendar_id_by_name b name <;>
    simp [countInserts, countDeletes, Call.isInsert, Call.isDelete]

/-! Claim theorems. -/

/-- C10: event-time extraction.  For a start/end carrying a zoned timestamp,
get_date_from_event returns the calendar date of the instant converted into
the time zone named on the event itself (the bracketing property states that
the converted local time falls inside the returned date); for an all-day
value it returns the bare date directly, with no conversion and ignoring the
stored time-zone string.  Concretely, 2024-03-01T23:00:00Z with event time
zone UTC-5 extracts 2024-03-01, and the all-day date 2024-03-02 extracts
2024-03-02. -/
theorem C10_event_time_extraction :
    (∀ (e : Event) (k : TimeKey) (instant offset : Int),
        e.timeInfo k = .dateTime instant offset →
        (86400 : Int) * get_date_from_event e k ≤ instant + offset ∧
          instant + offset < (86400 : Int) * (get_date_from_event e k + 1)) ∧
    (∀ (e : Event) (k : TimeKey) (d : LocalDate) (tzName : String),
        e.timeInfo k = .date d tzName → get_date_from_event e k = d) ∧
    get_date_from_event evZoned .start = Civil.toDays ⟨2024, 3, 1⟩ ∧
    get_date_from_event evZoned .end_ = Civil.toDays ⟨2024, 3, 2⟩ := by
  refine ⟨?_, ?_, by decide, by decide⟩
  · intro e k instant offset h
    have hd : get_date_from_event e k = (instant + offset).fdiv 86400 := by
      unfold get_date_from_event
      rw [h]
    rw [hd, Int.fdiv_eq_ediv _ (by decide : (0:Int) ≤ 86400)]
    constructor
    · omega
    · omega
  · intro e k d tzName h
    unfold get_date_from_event
    rw [h]

/-- C10 witness: the extraction theorem applied to the concrete zoned event
(2024-03-01T23:00:00Z at UTC-5) and its all-day end field. -/
theorem C10_event_time_extraction_witness :
    ((86400 : Int) * get_date_from_event evZoned .start
        ≤ (Civil.toDays ⟨2024, 3, 1⟩) * 86400 + 23 * 3600 + -(5 * 3600) ∧
      (Civil.toDays ⟨2024, 3, 1⟩) * 86400 + 23 * 3600 + -(5 * 3600)
        < (86400 : Int) * (get_date_from_event evZoned .start + 1)) ∧
    get_date_from_event evZoned .end_ = Civil.toDays ⟨2024, 3, 2⟩ :=
  ⟨C10_event_time_extraction.1 evZoned .start
      ((Civil.toDays ⟨2024, 3, 1⟩) * 86400 + 23 * 3600) (-(5 * 3600)) rfl,
   C10_event_time_extraction.2.1 evZoned .end_ (Civil.toDays ⟨2024, 3, 2⟩) "UTC-5" rfl⟩

/-- C9: calendar resolution.  When the direct id probe hits a calendar, its
id is returned; when the probe misses and the listing succeeds, the first
display-name match (if any) provides the id; when the probe misses and
either the listing raises or nothing matches, None is returned.  In
particular a calendar reachable both ways resolves to the same identifier
from its id and from its display name. -/
theorem C9_calendar_resolution (b : Backend) :
    (∀ (name : String) (c : Calendar),
        b.calendars.find? (fun x => x.id == name) = some c →
        get_calendar_id_by_name b name = some c.id) ∧
    (∀ name : String,
        b.calendars.find? (fun x => x.id == name) = none →
        b.listCalsFails = false →
        get_calendar_id_by_name b name
          = Option.map Calendar.id (b.calendars.find? (fun x => x.summary == name))) ∧
    (∀ name : String,
        b.calendars.find? (fun x => x.id == name) = none →
        (b.listCalsFails = true ∨ b.calendars.find? (fun x => x.summary == name) = none) →
        get_calendar_id_by_name b name = none) ∧
    (∀ c : Calendar,
        b.calendars.find? (fun x => x.id == c.id) = some c →
        b.calendars.find? (fun x => x.id == c.summary) = none →
        b.listCalsFails = false →
        b.calendars.find? (fun x => x.summary == c.summary) = some c →
        get_calendar_id_by_name b c.id = get_calendar_id_by_name b c.summary ∧
          get_calendar_id_by_name b c.id = some c.id) := by
  refine ⟨?_, ?_, ?_, ?_⟩
  · intro name c h
    simp [get_calendar_id_by_name, h]
  · intro name h1 h2
    cases h3 : b.calendars.find? (fun x => x.summary == name) <;>
      simp [get_calendar_id_by_name, h1, h2, h3]
  · intro name h1 h2
    rcases h2 with h2 | h2
    · simp [get_calendar_id_by_name, h1, h2]
    · cases h3 : b.listCalsFails <;> simp [get_calendar_id_by_name, h1, h2, h3]
  · intro c h1 h2 h3 h4
    constructor
    · simp [get_calendar_id_by_name, h1, h2, h3, h4]
    · simp [get_calendar_id_by_name, h1]

/-- C9 witness: the resolution theorem applied to the concrete backend whose
only calendar has id cal-id-1 and display name Team Calendar: both lookups
return cal-id-1, and an unknown name returns None. -/
theorem C9_calendar_resolution_witness :
    (get_calendar_id_by_name b0 "cal-id-1" = get_calendar_id_by_name b0 "Team Calendar" ∧
      get_calendar_id_by_name b0 "cal-id-1" = some "cal-id-1") ∧
    get_calendar_id_by_name b0 "no-such-calendar" = none :=
  ⟨(C9_calendar_resolution b0).2.2.2 cal0 (by decide) (by decide) rfl (by decide),
   (C9_calendar_resolution b0).2.2.1 "no-such-calendar" (by decide) (Or.inr (by decide))⟩

/-- C5: asymmetric matching.  The event with summary alice OOO-extra-suffix
contains the fingerprint alice OOO but does not equal it; the is-ooo-today
check (containment) therefore reports OOO on it, while enable's duplicate
detection (exact match) does not treat it as a duplicate (event_exists is
false and enable proceeds to create), and disable's delete targeting (exact
match) issues no delete call for it. -/
theorem C5_asymmetric_matching :
    strContains evSuffix.summary (fingerprint cfg0) = true ∧
    (evSuffix.summary == fingerprint cfg0) = false ∧
    (is_ooo_today bSuffix cfg0 none dMon uJan).1 = TodayResult.ooo ∧
    event_exists bSuffix (some "cal-id-1") (Civil.toDays ⟨2024, 1, 8⟩)
      (Civil.toDays ⟨2024, 1, 12⟩ + 1) (fingerprint cfg0) = false ∧
    (enable_out_of_office bSuffix cfg0 (Civil.toDays ⟨2024, 1, 8⟩)
        (Civil.toDays ⟨2024, 1, 12⟩)).result = EnableResult.created "new-1" ∧
    countDeletes (disable_out_of_office bSuffix cfg0 uJan).2 = 0 := by
  decide

/-- C3 counterexample: on Saturday 2024-01-06 the operation does report
weekend OOO, but its very run issues a backend event query (the fetch
precedes the weekend check), refuting that no backend event query is issued
before reporting. -/
theorem C3_counterexample :
    (is_ooo_today b0 cfg0 none dSat uJan).1 = TodayResult.oooWeekend ∧
    countQueries (is_ooo_today b0 cfg0 none dSat uJan).2 = 1 := by
  decide

/-- C3 amended: if today is a Saturday or Sunday, is_ooo_today reports OOO
due to the weekend regardless of the backend contents, but the upcoming
events are fetched before the weekend check, so the operation still issues
its backend event query (its call trace is exactly the fetch trace). -/
theorem C3_weekend_check_amended (b : Backend) (cfg : Config)
    (team_member : Option String) (today : LocalDate) (utc : Civil)
    (hwk : weekday today = 5 ∨ weekday today = 6) :
    (is_ooo_today b cfg team_member today utc).1 = TodayResult.oooWeekend ∧
    (is_ooo_today b cfg team_member today utc).2
      = (get_upcoming_ooo_events b cfg cfg.default_team_calendar 100 utc).2 := by
  have hb : (weekday today == 5 || weekday today == 6) = true := by
    rcases hwk with h | h <;> simp [h]
  unfold is_ooo_today
  simp [hb]

/-- C3 amended witness: the amended theorem at Saturday 2024-01-06 on the
concrete backend. -/
theorem C3_weekend_check_amended_witness :
    (is_ooo_today b0 cfg0 none dSat uJan).1 = TodayResult.oooWeekend ∧
    (is_ooo_today b0 cfg0 none dSat uJan).2
      = (get_upcoming_ooo_events b0 cfg0 cfg0.default_team_calendar 100 uJan).2 :=
  C3_weekend_check_amended b0 cfg0 none dSat uJan (Or.inl (by decide))

/-- Delete calls in a concatenated trace. -/
theorem countDeletes_append (a b : List Call) :
    countDeletes (a ++ b) = countDeletes a + countDeletes b := by
  simp [countDeletes, List.filter_append]

/-- C8: disable not-found outcome.  When the fetch returns zero events,
disable reports exactly the no-event message and issues no delete call;
and whenever no fetched event has a summary exactly equal to the
fingerprint, no delete call is issued. -/
theorem C8_disable_not_found (b : Backend) (cfg : Config) (utc : Civil) :
    ((get_upcoming_ooo_events b cfg cfg.default_team_calendar 100 utc).1 = [] →
      (disable_out_of_office b cfg utc).1 = [Msg.noEventsFound] ∧
        countDeletes (disable_out_of_office b cfg utc).2 = 0) ∧
    ((∀ ev ∈ (get_upcoming_ooo_events b cfg cfg.default_team_calendar 100 utc).1,
        ev.summary ≠ fingerprint cfg) →
      countDeletes (disable_out_of_office b cfg utc).2 = 0) := by
  have hq := (get_upcoming_no_mutations b cfg cfg.default_team_calendar 100 utc).2
  constructor
  · intro h
    unfold disable_out_of_office
    simp only [h]
    constructor
    · simp [disableLoop]
    · simp only [disableLoop, countDeletes_append, hq]
      rfl
  · intro hne
    have hloop := disableLoop_eq_of_no_fail
      (get_calendar_id_by_name b cfg.default_team_calendar) b.deleteFails
      (fingerprint cfg)
      (get_upcoming_ooo_events b cfg cfg.default_team_calendar 100 utc).1
      (fun ev hmem hfp => absurd hfp (hne ev hmem))
    have hfil : (get_upcoming_ooo_events b cfg cfg.default_team_calendar 100 utc).1.filter
        (fun ev => ev.summary == fingerprint cfg) = [] := by
      rw [List.filter_eq_nil_iff]
      intro ev hmem
      simpa using hne ev hmem
    rw [hfil] at hloop
    unfold disable_out_of_office
    simp only [hloop, List.map_nil, countDeletes_append, hq]
    rfl

/-- C8 witness: disable on the concrete backend with an empty event store
reports the not-found message and issues no delete call. -/
theorem C8_disable_not_found_witness :
    ((disable_out_of_office b0 cfg0 uJan).1 = [Msg.noEventsFound] ∧
      countDeletes (disable_out_of_office b0 cfg0 uJan).2 = 0) ∧
    countDeletes (disable_out_of_office b0 cfg0 uJan).2 = 0 :=
  ⟨(C8_disable_not_found b0 cfg0 uJan).1 (by decide),
   (C8_disable_not_found b0 cfg0 uJan).2 (by decide)⟩

/-- C4 counterexample: with two fetched events whose summaries equal the
fingerprint exactly, disable issues two delete calls (and reports two
successes), not exactly one delete of only the first match. -/
theorem C4_counterexample :
    ((get_upcoming_ooo_events bTwo cfg0 cfg0.default_team_calendar 100 uJan).1.filter
        (fun ev => ev.summary == fingerprint cfg0)).length = 2 ∧
    countDeletes (disable_out_of_office bTwo cfg0 uJan).2 = 2 ∧
    (disable_out_of_office bTwo cfg0 uJan).1 = [Msg.disabledOk, Msg.disabledOk] := by
  decide

/-- C4 amended: disable deletes every fetched event whose summary exactly
equals the fingerprint — one delete call per matching event, in list order,
reporting one success per deletion — not only the first; it stops early
only when a delete fails (here: no attempted delete fails), and reports the
no-event message exactly when the fetch returned no events at all. -/
theorem C4_disable_deletes_every_match (b : Backend) (cfg : Config) (utc : Civil)
    (cid : String)
    (hres : get_calendar_id_by_name b cfg.default_team_calendar = some cid)
    (hnofail : ∀ ev ∈ (get_upcoming_ooo_events b cfg cfg.default_team_calendar 100 utc).1,
        ev.summary = fingerprint cfg → b.deleteFails.contains ev.id = false) :
    (disable_out_of_office b cfg utc).2
      = (get_upcoming_ooo_events b cfg cfg.default_team_calendar 100 utc).2
        ++ ((get_upcoming_ooo_events b cfg cfg.default_team_calendar 100 utc).1.filter
              (fun ev => ev.summary == fingerprint cfg)).map
            (fun ev => Call.delete (some cid) ev.id) ∧
    (disable_out_of_office b cfg utc).1
      = List.replicate ((get_upcoming_ooo_events b cfg cfg.default_team_calendar 100 utc).1.filter
            (fun ev => ev.summary == fingerprint cfg)).length Msg.disabledOk
        ++ (if (get_upcoming_ooo_events b cfg cfg.default_team_calendar 100 utc).1.isEmpty
              then [Msg.noEventsFound] else []) := by
  have hloop := disableLoop_eq_of_no_fail
    (get_calendar_id_by_name b cfg.default_team_calendar) b.deleteFails
    (fingerprint cfg)
    (get_upcoming_ooo_events b cfg cfg.default_team_calendar 100 utc).1 hnofail
  rw [hres] at hloop
  unfold disable_out_of_office
  rw [hres]
  simp only [hloop]
  exact ⟨trivial, trivial⟩

/-- C4 amended witness: the amended theorem on the concrete two-match
backend: two deletes in order m1, m2 and two success reports. -/
theorem C4_disable_deletes_every_match_witness :
    (disable_out_of_office bTwo cfg0 uJan).2
      = (get_upcoming_ooo_events bTwo cfg0 cfg0.default_team_calendar 100 uJan).2
        ++ ((get_upcoming_ooo_events bTwo cfg0 cfg0.default_team_calendar 100 uJan).1.filter
              (fun ev => ev.summary == fingerprint cfg0)).map
            (fun ev => Call.delete (some "cal-id-1") ev.id) ∧
    (disable_out_of_office bTwo cfg0 uJan).1
      = List.replicate ((get_upcoming_ooo_events bTwo cfg0 cfg0.default_team_calendar 100 uJan).1.filter
            (fun ev => ev.summary == fingerprint cfg0)).length Msg.disabledOk
        ++ (if (get_upcoming_ooo_events bTwo cfg0 cfg0.default_team_calendar 100 uJan).1.isEmpty
              then [Msg.noEventsFound] else []) :=
  C4_disable_deletes_every_match bTwo cfg0 uJan "cal-id-1" (by decide) (by decide)

/-- C1: half-open/inclusive round trip.  For start_date ≤ end_date, enable
stores the all-day event with end date end_date + 1 day (and start date
start_date), and check, displaying an event whose extracted start differs
from its extracted end, subtracts one day from the end, so an event stored
by enable is displayed with the original inclusive range. -/
theorem C1_half_open_round_trip (cfg : Config) (s e : Int) (hse : s ≤ e) :
    (∀ (b : Backend) (cid : String),
        get_calendar_id_by_name b cfg.default_team_calendar = some cid →
        event_exists b (some cid) s (e + 1) (fingerprint cfg) = false →
        b.insertFails = false →
        (enable_out_of_office b cfg s e).state.events
            = b.events ++ [mkOooEvent cfg s (e + 1) b.nextId] ∧
          (mkOooEvent cfg s (e + 1) b.nextId).end_ = TimeInfo.date (e + 1) cfg.timezone ∧
          (mkOooEvent cfg s (e + 1) b.nextId).start = TimeInfo.date s cfg.timezone) ∧
    (∀ (b : Backend) (max_results : Nat) (utc : Civil) (assignedId : String),
        mkOooEvent cfg s (e + 1) assignedId
            ∈ (get_upcoming_ooo_events b cfg cfg.default_team_calendar max_results utc).1 →
        CheckMsg.line s e (fingerprint cfg) assignedId "default"
            ∈ (check_out_of_office b cfg max_results utc).1) := by
  constructor
  · intro b cid hres hdup hins
    refine ⟨?_, rfl, rfl⟩
    simp [enable_out_of_office, hres, hdup, hins]
  · intro b max_results utc assignedId hmem
    have hne : (get_upcoming_ooo_events b cfg cfg.default_team_calendar max_results utc).1.isEmpty
        = false := by
      cases hE : (get_upcoming_ooo_events b cfg cfg.default_team_calendar max_results utc).1 with
      | nil => rw [hE] at hmem; exact absurd hmem (List.not_mem_nil _)
      | cons x xs => rfl
    have hs : s ≠ e + 1 := by omega
    unfold check_out_of_office
    simp only [hne, Bool.false_eq_true, if_false]
    apply List.mem_map.mpr
    refine ⟨mkOooEvent cfg s (e + 1) assignedId, hmem, ?_⟩
    simp only [mkOooEvent, get_date_from_event, Event.timeInfo]
    rw [if_pos hs]
    have h3 : e + 1 - 1 = e := by omega
    rw [h3]

/-- C1 witness: the round-trip theorem at 2024-01-10..2024-01-12: enable on
the empty store appends the event with stored end 2024-01-13, and check on
the store holding that event displays 2024-01-10 to 2024-01-12. -/
theorem C1_half_open_round_trip_witness :
    ((enable_out_of_office b0 cfg0 s0 e0).state.events
        = b0.events ++ [mkOooEvent cfg0 s0 (e0 + 1) b0.nextId] ∧
      (mkOooEvent cfg0 s0 (e0 + 1) b0.nextId).end_
        = TimeInfo.date (e0 + 1) cfg0.timezone ∧
      (mkOooEvent cfg0 s0 (e0 + 1) b0.nextId).start = TimeInfo.date s0 cfg0.timezone) ∧
    CheckMsg.line s0 e0 (fingerprint cfg0) "evt-1" "default"
        ∈ (check_out_of_office bStored cfg0 10 uJan).1 :=
  ⟨(C1_half_open_round_trip cfg0 s0 e0 (by decide)).1 b0 "cal-id-1"
      (by decide) (by decide) rfl,
   (C1_half_open_round_trip cfg0 s0 e0 (by decide)).2 bStored 10 uJan "evt-1" (by decide)⟩

/-- C2: idempotence of enable.  Under a resolvable calendar, no pre-existing
duplicate and a working insert, the first enable creates the event (exactly
one insert call) and the second identical enable finds the stored event by
exact summary match in the window, mutates nothing, reports the warning
outcome, and issues no insert call. -/
theorem C2_enable_idempotent (b : Backend) (cfg : Config) (s e : Int) (cid : String)
    (hse : s ≤ e)
    (hres : get_calendar_id_by_name b cfg.default_team_calendar = some cid)
    (hdup : event_exists b (some cid) s (e + 1) (fingerprint cfg) = false)
    (hins : b.insertFails = false) :
    (enable_out_of_office b cfg s e).result = EnableResult.created b.nextId ∧
    countInserts (enable_out_of_office b cfg s e).calls = 1 ∧
    (enable_out_of_office (enable_out_of_office b cfg s e).state cfg s e).result
        = EnableResult.alreadyExists ∧
    (enable_out_of_office (enable_out_of_office b cfg s e).state cfg s e).state
        = (enable_out_of_office b cfg s e).state ∧
    countInserts (enable_out_of_office (enable_out_of_office b cfg s e).state cfg s e).calls
        = 0 := by
  have h1 : enable_out_of_office b cfg s e
      = { result := EnableResult.created b.nextId
          state := { b with events := b.events ++ [mkOooEvent cfg s (e + 1) b.nextId] }
          calls := [Call.query (some cid) (s * (86400 : Int)) ((e + 1) * (86400 : Int))
              (fingerprint cfg),
            Call.insert cid (mkOooEvent cfg s (e + 1) b.nextId)] } := by
    simp [enable_out_of_office, hres, hdup, hins]
  have hres1 : get_calendar_id_by_name
      { b with events := b.events ++ [mkOooEvent cfg s (e + 1) b.nextId] }
      cfg.default_team_calendar = some cid := hres
  have hdup1 : event_exists
      { b with events := b.events ++ [mkOooEvent cfg s (e + 1) b.nextId] }
      (some cid) s (e + 1) (fingerprint cfg) = true := by
    unfold event_exists
    apply List.any_eq_true.mpr
    refine ⟨mkOooEvent cfg s (e + 1) b.nextId, ?_, by simp [mkOooEvent]⟩
    unfold listEvents
    apply List.mem_filter.mpr
    constructor
    · exact List.mem_append_right _ (List.mem_singleton_self _)
    · simp only [mkOooEvent, TimeInfo.utcSeconds, Bool.and_eq_true, decide_eq_true_eq]
      refine ⟨⟨?_, ?_⟩, ?_⟩
      · omega
      · omega
      · exact strContains_refl _
  have h2 : enable_out_of_office
      { b with events := b.events ++ [mkOooEvent cfg s (e + 1) b.nextId] } cfg s e
      = { result := EnableResult.alreadyExists
          state := { b with events := b.events ++ [mkOooEvent cfg s (e + 1) b.nextId] }
          calls := [Call.query (some cid) (s * (86400 : Int)) ((e + 1) * (86400 : Int))
              (fingerprint cfg)] } := by
    simp [enable_out_of_office, hres1, hdup1]
  rw [h1]
  dsimp only
  rw [h2]
  refine ⟨rfl, ?_, rfl, rfl, ?_⟩
  · simp [countInserts, Call.isInsert]
  · simp [countInserts, Call.isInsert]

/-- C2 witness: enable twice for 2024-01-10..2024-01-12 on the concrete
empty-store backend: one creation, then a skip with no mutation. -/
theorem C2_enable_idempotent_witness :
    (enable_out_of_office b0 cfg0 s0 e0).result = EnableResult.created b0.nextId ∧
    countInserts (enable_out_of_office b0 cfg0 s0 e0).calls = 1 ∧
    (enable_out_of_office (enable_out_of_office b0 cfg0 s0 e0).state cfg0 s0 e0).result
        = EnableResult.alreadyExists ∧
    (enable_out_of_office (enable_out_of_office b0 cfg0 s0 e0).state cfg0 s0 e0).state
        = (enable_out_of_office b0 cfg0 s0 e0).state ∧
    countInserts (enable_out_of_office (enable_out_of_office b0 cfg0 s0 e0).state cfg0 s0 e0).calls
        = 0 :=
  C2_enable_idempotent b0 cfg0 s0 e0 "cal-id-1" (by decide) (by decide) (by decide) rfl

/-- C6: for any team_member argument, is_ooo_today's backend event query is
filtered with the configured default person's fingerprint (built from
default_personal_calendar), not the named team member's, and every fetched
event's summary therefore contains the default fingerprint. -/
theorem C6_query_uses_default_fingerprint (b : Backend) (cfg : Config) (t : String)
    (today : LocalDate) (utc : Civil) (cid : String)
    (hres : get_calendar_id_by_name b cfg.default_team_calendar = some cid) :
    (is_ooo_today b cfg (some t) today utc).2
        = [Call.query (some cid) (windowMin utc) (windowMax utc) (fingerprint cfg)] ∧
    ∀ ev ∈ (get_upcoming_ooo_events b cfg cfg.default_team_calendar 100 utc).1,
      strContains ev.summary (fingerprint cfg) = true := by
  have hfetch : get_upcoming_ooo_events b cfg cfg.default_team_calendar 100 utc
      = ((listEvents b.events (windowMin utc) (windowMax utc) (fingerprint cfg)).take 100,
         [Call.query (some cid) (windowMin utc) (windowMax utc) (fingerprint cfg)]) := by
    unfold get_upcoming_ooo_events
    rw [hres]
  constructor
  · unfold is_ooo_today
    rw [hfetch]
    dsimp only
    split
    · rfl
    · split <;> rfl
  · intro ev hmem
    rw [hfetch] at hmem
    have hmem2 := List.mem_of_mem_take hmem
    unfold listEvents at hmem2
    have hp := (List.mem_filter.mp hmem2).2
    simp only [Bool.and_eq_true] at hp
    exact hp.2

/-- C6 witness: is_ooo_today for team member bob on the concrete backend
still queries with the default fingerprint alice OOO. -/
theorem C6_query_uses_default_fingerprint_witness :
    (is_ooo_today b0 cfg0 (some "bob") dMon uJan).2
        = [Call.query (some "cal-id-1") (windowMin uJan) (windowMax uJan) (fingerprint cfg0)] ∧
    ∀ ev ∈ (get_upcoming_ooo_events b0 cfg0 cfg0.default_team_calendar 100 uJan).1,
      strContains ev.summary (fingerprint cfg0) = true :=
  C6_query_uses_default_fingerprint b0 cfg0 "bob" dMon uJan "cal-id-1" (by decide)

/-- C7: is_ooo_today compares today against the raw extracted end date, so
for an enable-created event (stored end end_date + 1) appearing in the
fetched list it reports OOO for every non-weekend today in the whole range
start_date .. end_date + 1 — one day past the requested inclusive end. -/
theorem C7_today_check_includes_exclusive_end (b : Backend) (cfg : Config)
    (s e today : Int) (utc : Civil) (assignedId : String)
    (hwk5 : weekday today ≠ 5) (hwk6 : weekday today ≠ 6)
    (hlo : s ≤ today) (hhi : today ≤ e + 1)
    (hmem : mkOooEvent cfg s (e + 1) assignedId
        ∈ (get_upcoming_ooo_events b cfg cfg.default_team_calendar 100 utc).1) :
    (is_ooo_today b cfg none today utc).1 = TodayResult.ooo := by
  have hw : (weekday today == 5 || weekday today == 6) = false := by
    simp [hwk5, hwk6]
  have hany : (get_upcoming_ooo_events b cfg cfg.default_team_calendar 100 utc).1.any
      (fun event =>
        strContains event.summary (defaultUsername cfg ++ " " ++ pyStrip cfg.ooo_pattern) &&
        decide (get_date_from_event event .start ≤ today) &&
        decide (today ≤ get_date_from_event event .end_)) = true := by
    apply List.any_eq_true.mpr
    refine ⟨mkOooEvent cfg s (e + 1) assignedId, hmem, ?_⟩
    simp only [mkOooEvent, get_date_from_event, Event.timeInfo, Bool.and_eq_true,
      decide_eq_true_eq]
    refine ⟨⟨?_, ?_⟩, ?_⟩
    · exact strContains_refl (fingerprint cfg)
    · exact hlo
    · exact hhi
  unfold is_ooo_today
  simp [hw, hany]

/-- C7 witness: the enable-created event for 2024-01-08..2024-01-09 (stored
end 2024-01-10) makes is_ooo_today report OOO on Wednesday 2024-01-10, one
day past the requested inclusive end. -/
theorem C7_today_check_includes_exclusive_end_witness :
    (is_ooo_today b7 cfg0 none (Civil.toDays ⟨2024, 1, 10⟩) ⟨2024, 1, 8⟩).1
        = TodayResult.ooo :=
  C7_today_check_includes_exclusive_end b7 cfg0 (Civil.toDays ⟨2024, 1, 8⟩)
    (Civil.toDays ⟨2024, 1, 9⟩) (Civil.toDays ⟨2024, 1, 10⟩) ⟨2024, 1, 8⟩ "evt-7"
    (by decide) (by decide) (by decide) (by decide) (by decide)
